import Mathlib

/-!
Verification of the event-dispatch and snapshot-serialization layer of the
Angular devtools in-page backend
(`devtools/projects/ng-devtools-backend/src/lib/client-event-subscribers.ts`),
shallowly embedded in Lean.

The live JavaScript world is modelled as follows: live instance state is a
`JSVal` (a JavaScript-like value tree); live DOM elements and live injectors
are identified by `Nat` handles; the mutable injector id registry
(`idToInjector` / `injectorsSeen` from `component-tree.ts`) is threaded
explicitly as an `InjectorRegistry` value; the message bus is modelled by
returning the list of emitted events; `console` output is modelled by a list
of `ConsoleOp`s; a thrown `TypeError` is modelled with `Except`.

Host functions that live outside the analysed file (the directive forest
hooks and the framework debug APIs) are passed in as a `HostAPI` record of
abstract functions; functions of this repository that are referenced but not
part of the analysed source are modelled from the spec and marked
`Modelled from the spec:` in their doc comments.
-/

namespace AngularDevtools

/-- A JavaScript-like value, used for live instance state. -/
inductive JSVal : Type where
  | vUndefined : JSVal
  | vNull : JSVal
  | vBool : Bool → JSVal
  | vNum : Int → JSVal
  | vStr : String → JSVal
  | vObj : List (String × JSVal) → JSVal

/-- JavaScript truthiness (`!data` in the source is `jsTruthy data = false`). -/
def jsTruthy : JSVal → Bool
  | .vUndefined => false
  | .vNull => false
  | .vBool b => b
  | .vNum n => ! (n == 0)
  | .vStr s => ! (s == "")
  | .vObj _ => true

/-- `DirectiveType` instance descriptor: name plus the live instance
(`instance` in the source; `instanceVal` here because `instance` is reserved
in Lean). -/
structure DirectiveInstanceType where
  name : String
  instanceVal : JSVal

/-- `ComponentType` instance descriptor. -/
structure ComponentInstanceType where
  name : String
  isElement : Bool
  instanceVal : JSVal

/-- `ComponentTreeNode` from `interfaces.ts`: element tag, optional component,
directives, children, and the native element modelled as a `Nat` handle. -/
inductive ComponentTreeNode : Type where
  | mk : String → Option ComponentInstanceType → List DirectiveInstanceType →
      List ComponentTreeNode → Nat → ComponentTreeNode

/-- `SerializedInjector` from the protocol: `{id, name, type}` with
`type` one of `"element"` / `"environment"`. -/
structure SerializedInjector where
  id : Nat
  name : String
  type : String

/-- `SerializableDirectiveInstanceType`: directive reduced to `{name, id}`. -/
structure SerializableDirectiveInstanceType where
  name : String
  id : Nat

/-- `SerializableComponentInstanceType`: component reduced to
`{name, isElement, id}`. -/
structure SerializableComponentInstanceType where
  name : String
  isElement : Bool
  id : Nat

/-- `SerializableComponentTreeNode`: element tag, reduced component, reduced
directives, children, and the optional `resolutionPath` field (`none` when
the key is absent, `some []` when present and empty). -/
inductive SerializableComponentTreeNode : Type where
  | mk : String → Option SerializableComponentInstanceType →
      List SerializableDirectiveInstanceType →
      List SerializableComponentTreeNode →
      Option (List SerializedInjector) → SerializableComponentTreeNode

/-- The `resolutionPath` field of a serializable node. -/
def SerializableComponentTreeNode.resolutionPath :
    SerializableComponentTreeNode → Option (List SerializedInjector)
  | .mk _ _ _ _ rp => rp

/-- A live injector: identity handle, element- vs environment-scoped flag,
and an optional derivable display name (none means it cannot be serialized). -/
structure Injector where
  ref : Nat
  isElement : Bool
  name : Option String

/-- The injector identity registry from `component-tree.ts`: the
`idToInjector` map (id to live injector handle) and the `injectorsSeen`
mark set. -/
structure InjectorRegistry where
  idToInjector : List (Nat × Nat)
  injectorsSeen : List Nat

/-- Registry operations performed during a snapshot, recorded as a trace so
that ordering properties (gc before/after id lookups) can be stated. -/
inductive RegOp : Type where
  | indexForest : RegOp
  | lookupDirective : RegOp
  | lookupInjector : RegOp
  | gcInjectors : RegOp
deriving DecidableEq

/-- Host instrumentation functions living outside the analysed file
(directive forest hooks and framework DI debug APIs), passed in abstractly. -/
structure HostAPI where
  getDirectiveId : JSVal → Nat
  getInjectorFromElementNode : Nat → Option Injector
  getInjectorResolutionPath : Injector → List Injector

/-- A provider record held by a live injector (token carried as its display
string; the record contents are opaque to the analysed file). -/
structure ProviderRecord where
  token : String

/-- The `index` field of a serialized provider record: a single numeric index
or a list of indices (multi-provider record). -/
inductive IndexValue : Type where
  | num : Nat → IndexValue
  | list : List Nat → IndexValue

/-- `SerializedProviderRecord` from the protocol: token descriptor plus the
index or indices into the owning injector's provider list. -/
structure SerializedProviderRecord where
  token : String
  index : IndexValue

/-- Per-directive properties payload of a `latestComponentExplorerView`
response: directive name with its serialized state. -/
abbrev DirectiveProperties := List (String × List (String × JSVal))

/-- `DirectivePosition` from the protocol: an element position (path of
child indices) plus an optional directive index. -/
structure DirectivePosition where
  element : List Nat
  directive : Option Nat

/-- `ComponentExplorerViewQuery`: the tree position of the selected element
(the property-query payload beyond the position is not needed here). -/
structure ComponentExplorerViewQuery where
  selectedElement : List Nat

/-- Outbound events emitted on the message bus. -/
inductive Event : Type where
  | latestComponentExplorerView : List SerializableComponentTreeNode →
      Option DirectiveProperties → Event
  | nestedProperties : DirectivePosition → List (String × JSVal) →
      List String → Event
  | updateRouterTree : Event
  | sendProfilerChunk : Nat → Event
  | profilerResults : List Nat → Event
  | latestInjectorProviders : SerializedInjector →
      List SerializedProviderRecord → Event
  | componentTreeDirty : Event

/-- The fixed command table of the event router. -/
inductive CommandName : Type where
  | shutdown
  | getLatestComponentExplorerView
  | queryNgAvailability
  | startProfiling
  | stopProfiling
  | setSelectedComponent
  | getNestedProperties
  | getRoutes
  | updateState
  | enableTimingAPI
  | disableTimingAPI
  | getInjectorProviders
  | logProvider
  | inspectorStart
  | inspectorEnd
  | createHighlightOverlay
  | removeHighlightOverlay
deriving DecidableEq

/-- The smallest non-negative integer not in `used` (id allocation of the
Identity Registry, §4.1: allocate the smallest unused id). -/
def smallestUnused (used : List Nat) : Nat :=
  ((List.range (used.length + 1)).filter (fun n => ! used.contains n)).headD 0

/-- Existing id of an injector handle in the registry, if any. -/
def injectorIdOf (reg : InjectorRegistry) (injRef : Nat) : Option Nat :=
  (reg.idToInjector.find? (fun p => p.2 == injRef)).map (fun p => p.1)

/-- Modelled from the spec: the `idFor` operation of the Identity Registry
(§4.1) as used for injectors by `component-tree.ts` (not under `src/`):
return the existing id if present, else allocate the smallest unused id and
record the mapping; in both cases mark the injector as seen in this pass. -/
def idForInjector (reg : InjectorRegistry) (injRef : Nat) :
    Nat × InjectorRegistry :=
  match injectorIdOf reg injRef with
  | some id => (id, ⟨reg.idToInjector, id :: reg.injectorsSeen⟩)
  | none =>
    let id := smallestUnused (reg.idToInjector.map (fun p => p.1))
    (id, ⟨(id, injRef) :: reg.idToInjector, id :: reg.injectorsSeen⟩)

/-- Modelled from the spec: `isElementInjector` from `component-tree.ts`
(not under `src/`): classifies an injector as element-scoped. -/
def isElementInjector (injector : Injector) : Bool :=
  injector.isElement

/-- Modelled from the spec: `serializeElementInjectorWithId` from
`component-tree.ts` (not under `src/`): look up or assign an id for the
injector in the injector identity registry (marking it seen), and produce
`{id, name, type: element}`; returns `none` (cannot serialize) when the
injector has no derivable display name (§4.3). -/
def serializeElementInjectorWithId (reg : InjectorRegistry)
    (injector : Injector) : Option SerializedInjector × InjectorRegistry :=
  match injector.name with
  | none => (none, reg)
  | some nm =>
    let r := idForInjector reg injector.ref
    (some ⟨r.1, nm, "element"⟩, r.2)

/-- Modelled from the spec: `serializeEnvironmentInjectorWithId` from
`component-tree.ts` (not under `src/`): as the element form, but with
`type: environment`. -/
def serializeEnvironmentInjectorWithId (reg : InjectorRegistry)
    (injector : Injector) : Option SerializedInjector × InjectorRegistry :=
  match injector.name with
  | none => (none, reg)
  | some nm =>
    let r := idForInjector reg injector.ref
    (some ⟨r.1, nm, "environment"⟩, r.2)

/-- The resolution-path serialization loop of `prepareForestForSerialization`
(source lines 244-260): serialize each injector of the chain, `continue`
(skip) when the serializer returns null, keep the rest. Returns the
serialized path, the updated registry, and the trace of registry lookups. -/
def serializeResolutionPath (reg : InjectorRegistry) :
    List Injector → List SerializedInjector × InjectorRegistry × List RegOp
  | [] => ([], reg, [])
  | injector :: rest =>
    let r :=
      if isElementInjector injector then
        serializeElementInjectorWithId reg injector
      else
        serializeEnvironmentInjectorWithId reg injector
    let rec2 := serializeResolutionPath r.2 rest
    ((match r.1 with
      | none => rec2.1
      | some s => s :: rec2.1),
     rec2.2.1,
     (if r.1.isSome then [RegOp.lookupInjector] else []) ++ rec2.2.2)

mutual

/-- Per-node body of `prepareForestForSerialization`: drops live references,
reduces component/directive descriptors to `{name, id}` via `getDirectiveId`,
recurses into children, and, when `includeResolutionPath` is set, attaches a
`resolutionPath`: `[]` when the node has no owning element injector, else the
chain serialization (skipping unserializable injectors). The injector
registry is threaded through, and a trace of registry operations is
recorded. -/
def prepareNodeForSerialization (host : HostAPI) :
    ComponentTreeNode → Bool → InjectorRegistry →
    SerializableComponentTreeNode × InjectorRegistry × List RegOp
  | .mk el comp dirs children native, includeResolutionPath, reg =>
    let serializedComponent : Option SerializableComponentInstanceType :=
      comp.map (fun c => ⟨c.name, c.isElement, host.getDirectiveId c.instanceVal⟩)
    let compOps : List RegOp :=
      if comp.isSome then [RegOp.lookupDirective] else []
    let serializedDirectives : List SerializableDirectiveInstanceType :=
      dirs.map (fun d => ⟨d.name, host.getDirectiveId d.instanceVal⟩)
    let dirOps : List RegOp := dirs.map (fun _ => RegOp.lookupDirective)
    let rc := prepareForestForSerialization host children includeResolutionPath reg
    if includeResolutionPath then
      match host.getInjectorFromElementNode native with
      | none =>
        (.mk el serializedComponent serializedDirectives rc.1 (some []),
         rc.2.1, compOps ++ dirOps ++ rc.2.2)
      | some nodeInjector =>
        let rp := serializeResolutionPath rc.2.1
          (host.getInjectorResolutionPath nodeInjector)
        (.mk el serializedComponent serializedDirectives rc.1 (some rp.1),
         rp.2.1, compOps ++ dirOps ++ rc.2.2 ++ rp.2.2)
    else
      (.mk el serializedComponent serializedDirectives rc.1 none,
       rc.2.1, compOps ++ dirOps ++ rc.2.2)

/-- `prepareForestForSerialization` (source lines 216-269): serialize each
root in order with `prepareNodeForSerialization`, threading the registry. -/
def prepareForestForSerialization (host : HostAPI) :
    List ComponentTreeNode → Bool → InjectorRegistry →
    List SerializableComponentTreeNode × InjectorRegistry × List RegOp
  | [], _, reg => ([], reg, [])
  | node :: rest, includeResolutionPath, reg =>
    let rn := prepareNodeForSerialization host node includeResolutionPath reg
    let rf := prepareForestForSerialization host rest includeResolutionPath rn.2.1
    (rn.1 :: rf.1, rf.2.1, rn.2.2 ++ rf.2.2)

end

/-- Modelled from the spec: `queryDirectiveForest` from `component-tree.ts`
(not under `src/`): resolve a position (a path of child indices from the
roots, glossary/§4.2) to a node of the forest; a position that no longer
exists resolves to nothing (§7, missing target). -/
def queryDirectiveForest (position : List Nat)
    (forest : List ComponentTreeNode) : Option ComponentTreeNode :=
  match position with
  | [] => none
  | i :: rest =>
    match forest[i]? with
    | none => none
    | some node =>
      match rest with
      | [] => some node
      | _ :: _ =>
        match node with
        | .mk _ _ _ children _ => queryDirectiveForest rest children

/-- JavaScript property access `data[prop]`: throws a `TypeError` on
`undefined`/`null`, returns the field (or `undefined`) on an object, and
`undefined` on other primitives. -/
def propAccess (data : JSVal) (prop : String) : Except Unit JSVal :=
  match data with
  | .vUndefined => .error ()
  | .vNull => .error ()
  | .vObj fields => .ok ((fields.lookup prop).getD .vUndefined)
  | _ => .ok .vUndefined

/-- The property-path walk of `getNestedPropertiesCallback` (source lines
141-146): `data = data[prop]` for each segment. A missing segment makes
`data` `undefined` (the source only logs an error and keeps going), so a
following segment throws. -/
def walkPropPath (data : JSVal) : List String → Except Unit JSVal
  | [] => .ok data
  | prop :: rest =>
    match propAccess data prop with
    | .error e => .error e
    | .ok d => walkPropPath d rest

/-- Modelled from the spec: `serializeDirectiveState` from the state
serializer (not under `src/`): serializes the enumerable properties of the
instance into the `props` record; a non-object value has no enumerable
properties, so it serializes to the empty record. -/
def serializeDirectiveState (data : JSVal) : List (String × JSVal) :=
  match data with
  | .vObj fields => fields
  | _ => []

/-- Modelled from the spec: the per-node directive properties produced for a
component explorer query: each directive (the component first, when present)
with its serialized state. -/
def nodeDirectiveProperties (node : ComponentTreeNode) : DirectiveProperties :=
  match node with
  | .mk _ comp dirs _ _ =>
    (match comp with
     | none => []
     | some c => [(c.name, serializeDirectiveState c.instanceVal)]) ++
    dirs.map (fun d => (d.name, serializeDirectiveState d.instanceVal))

/-- Modelled from the spec: `getLatestComponentState` from
`component-tree.ts` (not under `src/`): resolve the query's tree position in
the forest and produce the per-node directive properties; a missing target
yields nothing (§7: missing target is handled by an empty result or no event
at all). -/
def getLatestComponentState (query : ComponentExplorerViewQuery)
    (forest : List ComponentTreeNode) : Option DirectiveProperties :=
  match queryDirectiveForest query.selectedElement forest with
  | none => none
  | some node => some (nodeDirectiveProperties node)

/-- `getLatestComponentExplorerViewCallback` (source lines 70-106): force a
reindex (recorded as the leading `RegOp.indexForest`), serialize the fresh
forest (with resolution paths exactly when the DI debug APIs are present),
run the injector-registry cleanup (delete every mapping not seen, clear the
seen set — only when the DI debug APIs are present), then emit: one
`latestComponentExplorerView` with `{forest}` when no query is supplied; one
with `{forest, properties}` when the query state resolves; nothing when it
does not. Returns (emitted events, final registry, registry-operation
trace). -/
def getLatestComponentExplorerViewCallback (host : HostAPI) (hasDi : Bool)
    (forest : List ComponentTreeNode) (query : Option ComponentExplorerViewQuery)
    (reg : InjectorRegistry) :
    List Event × InjectorRegistry × List RegOp :=
  let r :=
    if hasDi then prepareForestForSerialization host forest true reg
    else prepareForestForSerialization host forest false reg
  let serializedForest := r.1
  let reg1 := r.2.1
  let reg2 : InjectorRegistry :=
    if hasDi then
      ⟨reg1.idToInjector.filter (fun p => reg1.injectorsSeen.contains p.1), []⟩
    else reg1
  let gcOps : List RegOp := if hasDi then [RegOp.gcInjectors] else []
  let opTrace : List RegOp := RegOp.indexForest :: (r.2.2 ++ gcOps)
  match query with
  | none =>
    ([Event.latestComponentExplorerView serializedForest none], reg2, opTrace)
  | some q =>
    match getLatestComponentState q forest with
    | none => ([], reg2, opTrace)
    | some directiveProperties =>
      ([Event.latestComponentExplorerView serializedForest
          (some directiveProperties)], reg2, opTrace)

/-- `getNestedPropertiesCallback` (source lines 127-149): resolve the element
position, pick the component (`position.directive` absent) or the indexed
directive, walk the property path into the instance, and emit
`nestedProperties`; a missing node or directive emits the empty result. The
walk itself can throw (modelled with `Except.error`). -/
def getNestedPropertiesCallback (forest : List ComponentTreeNode)
    (position : DirectivePosition) (propPath : List String) :
    Except Unit (List Event) :=
  let emitEmpty : List Event := [Event.nestedProperties position [] propPath]
  match queryDirectiveForest position.element forest with
  | none => .ok emitEmpty
  | some node =>
    let current : Option JSVal :=
      match position.directive with
      | none =>
        match node with
        | .mk _ comp _ _ _ => comp.map (fun c => c.instanceVal)
      | some i =>
        match node with
        | .mk _ _ dirs _ _ => (dirs[i]?).map (fun d => d.instanceVal)
    match current with
    | none => .ok emitEmpty
    | some instanceVal =>
      match walkPropPath instanceVal propPath with
      | .error e => .error e
      | .ok data =>
        .ok [Event.nestedProperties position (serializeDirectiveState data)
          propPath]

/-- `getInjectorProvidersCallback` (source lines 272-292): an unknown
injector id produces no event; otherwise the provider records are fetched
and serialized — in environment-scope form exactly when the request's
injector `type` is `"environment"` — and one `latestInjectorProviders` event
is emitted. The host's `getInjectorProviders` and `serializeProviderRecord`
(from `component-tree.ts`, not under `src/`) are passed in abstractly; the
source's one-argument `serializeProviderRecord(record)` call uses the
default `false` for its scope flag. -/
def getInjectorProvidersCallback (reg : InjectorRegistry)
    (getInjectorProviders : Nat → List ProviderRecord)
    (serializeProviderRecord : ProviderRecord → Bool → SerializedProviderRecord)
    (injector : SerializedInjector) : List Event :=
  match (reg.idToInjector.lookup injector.id) with
  | none => []
  | some injectorRef =>
    let providerRecords := getInjectorProviders injectorRef
    let serializedProviderRecords : List SerializedProviderRecord :=
      if injector.type = "environment" then
        providerRecords.map (fun providerRecord =>
          serializeProviderRecord providerRecord true)
      else
        providerRecords.map (fun providerRecord =>
          serializeProviderRecord providerRecord false)
    [Event.latestInjectorProviders injector serializedProviderRecords]

/-- Console operations performed by `logProvider`, recorded as a trace. A
logged provider record is an `Option` because a JavaScript out-of-range read
yields `undefined`. -/
inductive ConsoleOp : Type where
  | group : String → String → ConsoleOp
  | logInjector : Nat → ConsoleOp
  | logProviderRecord : Option ProviderRecord → ConsoleOp
  | logProviderList : List (Option ProviderRecord) → ConsoleOp
  | logValue : String → ConsoleOp
  | groupEnd : ConsoleOp

/-- `logProvider` (source lines 294-332): an unknown injector id does
nothing; otherwise open a console group (name, type), log the injector, and
then — for a single numeric index — log that provider record and the value
of its token, or — for a list of indices — log all referenced provider
records but the value of only the first one's token. Returns the console
trace and whether a `TypeError` was thrown (reading `.token` of
`undefined`). -/
def logProvider (reg : InjectorRegistry)
    (getInjectorProviders : Nat → List ProviderRecord)
    (serializedInjector : SerializedInjector)
    (serializedProvider : SerializedProviderRecord) :
    List ConsoleOp × Bool :=
  match (reg.idToInjector.lookup serializedInjector.id) with
  | none => ([], false)
  | some injectorRef =>
    let providerRecords := getInjectorProviders injectorRef
    let header : List ConsoleOp :=
      [ConsoleOp.group serializedInjector.name serializedInjector.type,
       ConsoleOp.logInjector injectorRef]
    match serializedProvider.index with
    | .num i =>
      match providerRecords[i]? with
      | none => (header ++ [ConsoleOp.logProviderRecord none], true)
      | some provider =>
        (header ++
          [ConsoleOp.logProviderRecord (some provider),
           ConsoleOp.logValue provider.token,
           ConsoleOp.groupEnd], false)
    | .list is =>
      let providers : List (Option ProviderRecord) :=
        is.map (fun index => providerRecords[index]?)
      match providers[0]? with
      | some (some provider) =>
        (header ++
          [ConsoleOp.logProviderList providers,
           ConsoleOp.logValue provider.token,
           ConsoleOp.groupEnd], false)
      | _ => (header ++ [ConsoleOp.logProviderList providers], true)

/-- Modelled from the spec: the debounce law of the change notifier (§4.6),
the semantics of `debounceTime(250)` applied to the change-detection signal
(the operator itself is library code): a signal at time `t` produces a
notification at `t + window` unless another signal arrives in the open-closed
interval `(t, t + window]`. -/
def debounceEmitTimes (window : Nat) (signals : List Nat) : List Nat :=
  signals.filterMap (fun t =>
    if signals.any (fun u => decide (t < u) && decide (u ≤ t + window)) then
      none
    else some (t + window))

/-- A strictly ascending signal stream whose consecutive gaps are under `w`
milliseconds (a "continuous stream of signals"). -/
def strictAscWithGaps (w : Nat) : List Nat → Bool
  | [] => true
  | [_] => true
  | a :: b :: rest => (decide (a < b) && decide (b - a < w)) &&
      strictAscWithGaps w (b :: rest)

/-- Profiler Capture states (§4.5): Idle or Recording. -/
inductive ProfilerPhase : Type where
  | idle
  | recording
deriving DecidableEq

/-- Modelled from the spec: the Profiler Capture state (§4.5, `hooks/capture`
is not under `src/`): the phase plus the frames seen since `start`. -/
structure CaptureState where
  phase : ProfilerPhase
  frames : List Nat

/-- Inputs driving the profiler: the two commands and a host frame. -/
inductive ProfilerInput : Type where
  | startCmd : ProfilerInput
  | frame : Nat → ProfilerInput
  | stopCmd : ProfilerInput

/-- Modelled from the spec: one step of the profiling session (§4.5 and
source lines 112-119). `startProfiling` installs the per-frame callback that
emits `sendProfilerChunk` immediately (streamed, not buffered); a frame while
Idle is not delivered; `stopProfiling` returns the aggregate of the recorded
frames, emitted as one `profilerResults` event. -/
def profilerStep (st : CaptureState) :
    ProfilerInput → CaptureState × List Event
  | .startCmd =>
    match st.phase with
    | .idle => (⟨.recording, []⟩, [])
    | .recording => (st, [])
  | .frame f =>
    match st.phase with
    | .recording => (⟨.recording, st.frames ++ [f]⟩, [Event.sendProfilerChunk f])
    | .idle => (st, [])
  | .stopCmd => (⟨.idle, []⟩, [Event.profilerResults st.frames])

/-- Run a sequence of profiler inputs, collecting the emitted events. -/
def profilerRun (st : CaptureState) : List ProfilerInput → List Event
  | [] => []
  | c :: cs =>
    let r := profilerStep st c
    r.2 ++ profilerRun r.1 cs

/-- `subscribeToClientEvents`, reduced to its registration effect: given the
three readiness conditions (`appIsAngularInDevMode`,
`appIsSupportedAngularVersion`, `appIsAngularIvy`), returns the list of
command names that get a handler installed, in registration order, together
with whether the debounced change-detection subscription (the change
notifier) was installed. -/
def subscribeToClientEvents (devMode supportedVersion ivy : Bool) :
    List CommandName × Bool :=
  let base : List CommandName :=
    [CommandName.shutdown,
     CommandName.getLatestComponentExplorerView,
     CommandName.queryNgAvailability,
     CommandName.startProfiling,
     CommandName.stopProfiling,
     CommandName.setSelectedComponent,
     CommandName.getNestedProperties,
     CommandName.getRoutes,
     CommandName.updateState,
     CommandName.enableTimingAPI,
     CommandName.disableTimingAPI,
     CommandName.getInjectorProviders,
     CommandName.logProvider]
  if devMode && supportedVersion && ivy then
    (base ++
      [CommandName.inspectorStart,
       CommandName.inspectorEnd,
       CommandName.createHighlightOverlay,
       CommandName.removeHighlightOverlay], true)
  else
    (base, false)

/-- Is this registry operation an id lookup (directive or injector)? -/
def isIdLookup : RegOp → Bool
  | .lookupDirective => true
  | .lookupInjector => true
  | _ => false

/-- The property claimed of the snapshot trace: the registry gc pass occurs
exactly once and before any id lookup of the snapshot. -/
def gcRunsFirst (opTrace : List RegOp) : Bool :=
  (opTrace.countP (fun op => decide (op = RegOp.gcInjectors)) == 1) &&
  ((opTrace.takeWhile (fun op => ! decide (op = RegOp.gcInjectors))).all
    (fun op => ! isIdLookup op))

mutual

/-- Number of nodes of a tree (node plus descendants). -/
def countNode : ComponentTreeNode → Nat
  | .mk _ _ _ children _ => 1 + countForest children

/-- Number of nodes of a forest. -/
def countForest : List ComponentTreeNode → Nat
  | [] => 0
  | node :: rest => countNode node + countForest rest

end

mutual

/-- Number of nodes of a serialized tree. -/
def countSerializedNode : SerializableComponentTreeNode → Nat
  | .mk _ _ _ children _ => 1 + countSerializedForest children

/-- Number of nodes of a serialized forest. -/
def countSerializedForest : List SerializableComponentTreeNode → Nat
  | [] => 0
  | node :: rest => countSerializedNode node + countSerializedForest rest

end

mutual

/-- Every node of the serialized tree carries a `resolutionPath` key. -/
def nodePathsPresent : SerializableComponentTreeNode → Bool
  | .mk _ _ _ children rp => rp.isSome && forestPathsPresent children

/-- Every node of the serialized forest carries a `resolutionPath` key. -/
def forestPathsPresent : List SerializableComponentTreeNode → Bool
  | [] => true
  | node :: rest => nodePathsPresent node && forestPathsPresent rest

end

mutual

/-- No node of the serialized tree carries a `resolutionPath` key. -/
def nodePathsAbsent : SerializableComponentTreeNode → Bool
  | .mk _ _ _ children rp => rp.isNone && forestPathsAbsent children

/-- No node of the serialized forest carries a `resolutionPath` key. -/
def forestPathsAbsent : List SerializableComponentTreeNode → Bool
  | [] => true
  | node :: rest => nodePathsAbsent node && forestPathsAbsent rest

end

/-!  Concrete inputs used by counterexamples and witnesses. -/

/-- A trivial host: every directive gets id 0, no element owns an injector. -/
def host0 : HostAPI := ⟨fun _ => 0, fun _ => none, fun _ => []⟩

/-- The empty injector registry. -/
def reg0 : InjectorRegistry := ⟨[], []⟩

/-- A query whose position points at the first root. -/
def q0 : ComponentExplorerViewQuery := ⟨[0]⟩

/-- A single root node carrying one component whose live instance is the
empty object. -/
def node0 : ComponentTreeNode :=
  ComponentTreeNode.mk "app" (some ⟨"A", false, JSVal.vObj []⟩) [] [] 0

/-- Position of `node0`'s component. -/
def pos0 : DirectivePosition := ⟨[0], none⟩

/-- A registry mapping injector id 5 to the live injector handle 77. -/
def reg5 : InjectorRegistry := ⟨[(5, 77)], []⟩

/-- A provider-record list with two tokens. -/
def providers2 : List ProviderRecord := [⟨"T0"⟩, ⟨"T1"⟩]

/-- A host provider lookup returning `providers2` for every injector. -/
def getProviders2 : Nat → List ProviderRecord := fun _ => providers2

/-- A concrete provider-record serializer for witnesses. -/
def serializeRecord0 : ProviderRecord → Bool → SerializedProviderRecord :=
  fun r env => ⟨r.token, if env then IndexValue.list [0, 1] else IndexValue.num 0⟩

/-- An environment-typed serialized injector with the known id 5. -/
def injEnv5 : SerializedInjector := ⟨5, "Env", "environment"⟩

/-- An element-typed serialized injector with the known id 5. -/
def injElem5 : SerializedInjector := ⟨5, "Elem", "element"⟩

/-!  Helper lemmas. -/

/-- Appending a singleton fixes the last element. -/
theorem getLast?_append_singleton {α : Type} (l : List α) (a : α) :
    (l ++ [a]).getLast? = some a := by
  rw [List.getLast?_append_cons]
  rfl

/-- The resolution-path serializer never performs a gc operation. -/
theorem serializeResolutionPath_no_gc :
    ∀ (chain : List Injector) (reg : InjectorRegistry),
    RegOp.gcInjectors ∉ (serializeResolutionPath reg chain).2.2 := by
  intro chain
  induction chain with
  | nil => intro reg; simp [serializeResolutionPath]
  | cons injector rest ih =>
    intro reg
    simp only [serializeResolutionPath, List.mem_append, not_or]
    constructor
    · split <;> simp
    · exact ih _

mutual

/-- Per-node serialization performs no gc operation. -/
theorem prepareNode_no_gc (host : HostAPI) :
    ∀ (node : ComponentTreeNode) (ip : Bool) (reg : InjectorRegistry),
    RegOp.gcInjectors ∉ (prepareNodeForSerialization host node ip reg).2.2
  | .mk el comp dirs children native, ip, reg => by
    have hc := prepareForest_no_gc host children ip reg
    cases ip with
    | false =>
      simp only [prepareNodeForSerialization, Bool.false_eq_true, if_false,
        List.mem_append, not_or]
      refine ⟨⟨?_, ?_⟩, hc⟩
      · cases comp <;> simp
      · simp [List.mem_map]
    | true =>
      simp only [prepareNodeForSerialization, if_true]
      cases hinj : host.getInjectorFromElementNode native with
      | none =>
        simp only [List.mem_append, not_or]
        refine ⟨⟨?_, ?_⟩, hc⟩
        · cases comp <;> simp
        · simp [List.mem_map]
      | some nodeInjector =>
        simp only [List.mem_append, not_or]
        refine ⟨⟨⟨?_, ?_⟩, hc⟩, ?_⟩
        · cases comp <;> simp
        · simp [List.mem_map]
        · exact serializeResolutionPath_no_gc _ _

/-- Forest serialization performs no gc operation. -/
theorem prepareForest_no_gc (host : HostAPI) :
    ∀ (forest : List ComponentTreeNode) (ip : Bool) (reg : InjectorRegistry),
    RegOp.gcInjectors ∉ (prepareForestForSerialization host forest ip reg).2.2
  | [], _, reg => by simp [prepareForestForSerialization]
  | node :: rest, ip, reg => by
    have h1 := prepareNode_no_gc host node ip reg
    have h2 := prepareForest_no_gc host rest ip
      (prepareNodeForSerialization host node ip reg).2.1
    simp only [prepareForestForSerialization, List.mem_append, not_or]
    exact ⟨h1, h2⟩

end

mutual

/-- Without resolution paths, per-node serialization leaves the injector
registry untouched and emits no `resolutionPath` key. -/
theorem prepareNode_false_spec (host : HostAPI) :
    ∀ (node : ComponentTreeNode) (reg : InjectorRegistry),
    (prepareNodeForSerialization host node false reg).2.1 = reg ∧
    nodePathsAbsent (prepareNodeForSerialization host node false reg).1 = true
  | .mk el comp dirs children native, reg => by
    have hc := prepareForest_false_spec host children reg
    simp only [prepareNodeForSerialization, Bool.false_eq_true, if_false,
      nodePathsAbsent, Option.isNone_none, Bool.true_and]
    exact ⟨hc.1, hc.2⟩

/-- Without resolution paths, forest serialization leaves the injector
registry untouched and emits no `resolutionPath` keys. -/
theorem prepareForest_false_spec (host : HostAPI) :
    ∀ (forest : List ComponentTreeNode) (reg : InjectorRegistry),
    (prepareForestForSerialization host forest false reg).2.1 = reg ∧
    forestPathsAbsent (prepareForestForSerialization host forest false reg).1 =
      true
  | [], reg => by simp [prepareForestForSerialization, forestPathsAbsent]
  | node :: rest, reg => by
    have h1 := prepareNode_false_spec host node reg
    have h2 := prepareForest_false_spec host rest
      (prepareNodeForSerialization host node false reg).2.1
    simp only [prepareForestForSerialization, forestPathsAbsent,
      Bool.and_eq_true]
    exact ⟨h2.1.trans h1.1, h1.2, h2.2⟩

end

mutual

/-- With resolution paths, every serialized node carries a `resolutionPath`
key, and serialization preserves the node count (every node contributes one
serialized node). -/
theorem prepareNode_true_spec (host : HostAPI) :
    ∀ (node : ComponentTreeNode) (reg : InjectorRegistry),
    nodePathsPresent (prepareNodeForSerialization host node true reg).1 = true ∧
    countSerializedNode (prepareNodeForSerialization host node true reg).1 =
      countNode node
  | .mk el comp dirs children native, reg => by
    have hc := prepareForest_true_spec host children reg
    simp only [prepareNodeForSerialization, if_true]
    cases hinj : host.getInjectorFromElementNode native with
    | none =>
      simp only [nodePathsPresent, countSerializedNode, countNode,
        Option.isSome_some, Bool.true_and]
      exact ⟨hc.1, by rw [hc.2]⟩
    | some nodeInjector =>
      simp only [nodePathsPresent, countSerializedNode, countNode,
        Option.isSome_some, Bool.true_and]
      exact ⟨hc.1, by rw [hc.2]⟩

/-- With resolution paths, every node of the serialized forest carries a
`resolutionPath` key, and the node count is preserved. -/
theorem prepareForest_true_spec (host : HostAPI) :
    ∀ (forest : List ComponentTreeNode) (reg : InjectorRegistry),
    forestPathsPresent (prepareForestForSerialization host forest true reg).1 =
      true ∧
    countSerializedForest
      (prepareForestForSerialization host forest true reg).1 =
      countForest forest
  | [], reg => by
    simp [prepareForestForSerialization, forestPathsPresent,
      countSerializedForest, countForest]
  | node :: rest, reg => by
    have h1 := prepareNode_true_spec host node reg
    have h2 := prepareForest_true_spec host rest
      (prepareNodeForSerialization host node true reg).2.1
    simp only [prepareForestForSerialization, forestPathsPresent,
      countSerializedForest, countForest, Bool.and_eq_true]
    exact ⟨⟨h1.1, h2.1⟩, by rw [h1.2, h2.2]⟩

end

/-- The serialized resolution path lists exactly the serializable injectors
of the chain, in order (unserializable ones are skipped, the rest are
kept). -/
theorem serializeResolutionPath_names :
    ∀ (chain : List Injector) (reg : InjectorRegistry),
    (serializeResolutionPath reg chain).1.map (fun s => s.name) =
      (chain.filter (fun injector => injector.name.isSome)).map
        (fun injector => injector.name.getD "") := by
  intro chain
  induction chain with
  | nil => intro reg; simp [serializeResolutionPath]
  | cons injector rest ih =>
    intro reg
    cases hel : isElementInjector injector <;>
      cases hnm : injector.name <;>
        simp [serializeResolutionPath, serializeElementInjectorWithId,
          serializeEnvironmentInjectorWithId, hel, hnm, ih, List.filter_cons]

/-- In a strictly ascending stream with gaps under `w`, a signal whose
debounce window is not interrupted is the maximal signal of the stream. -/
theorem suppressFree_is_max (w : Nat) :
    ∀ (ts : List Nat), strictAscWithGaps w ts = true →
    ∀ t0 ∈ ts,
      ts.any (fun u => decide (t0 < u) && decide (u ≤ t0 + w)) = false →
      ∀ t ∈ ts, t ≤ t0 := by
  intro ts
  induction ts with
  | nil => intro _ t0 h0; simp at h0
  | cons a l ih =>
    intro hasc t0 ht0 hany t ht
    cases l with
    | nil =>
      simp only [List.mem_cons, List.not_mem_nil, or_false] at ht0 ht
      omega
    | cons b rest =>
      simp only [strictAscWithGaps, Bool.and_eq_true, decide_eq_true_eq]
        at hasc
      rw [List.any_cons, Bool.or_eq_false_iff] at hany
      have hpb := hany.2
      rcases List.mem_cons.mp ht0 with h0 | h0
      · exfalso
        have htrue : (decide (t0 < b) && decide (b ≤ t0 + w)) = true := by
          subst h0
          simp only [Bool.and_eq_true, decide_eq_true_eq]
          omega
        rw [List.any_cons, Bool.or_eq_false_iff] at hpb
        rw [htrue] at hpb
        exact Bool.noConfusion hpb.1
      · have htail := ih hasc.2 t0 h0 hpb
        rcases List.mem_cons.mp ht with h1 | h1
        · have hb := htail b (List.mem_cons_self b rest)
          omega
        · exact htail t h1

/-!  Claim theorems. -/

/-- C1 counterexample: with an empty forest and a query whose tree position
does not resolve, the handler emits zero `latestComponentExplorerView`
events, not exactly one. -/
theorem c1_counterexample :
    ¬ ((getLatestComponentExplorerViewCallback host0 false [] (some q0)
        reg0).1.length = 1) := by
  decide

/-- C1 (amended): every `getLatestComponentExplorerView` command forces a
reindex; the handler emits exactly one `latestComponentExplorerView` event —
with payload `{forest}` when no query is supplied, and with payload
`{forest, properties}` when a query is supplied whose target resolves; when
a query is supplied but its target does not resolve, no event is emitted. -/
theorem c1_theorem :
    ∀ (host : HostAPI) (hasDi : Bool) (forest : List ComponentTreeNode)
      (reg : InjectorRegistry),
    (∀ query,
      ((getLatestComponentExplorerViewCallback host hasDi forest query
        reg).2.2).head? = some RegOp.indexForest) ∧
    (getLatestComponentExplorerViewCallback host hasDi forest none reg).1 =
      [Event.latestComponentExplorerView
        (if hasDi then (prepareForestForSerialization host forest true reg).1
         else (prepareForestForSerialization host forest false reg).1) none] ∧
    (∀ q props, getLatestComponentState q forest = some props →
      (getLatestComponentExplorerViewCallback host hasDi forest (some q)
        reg).1 =
        [Event.latestComponentExplorerView
          (if hasDi then (prepareForestForSerialization host forest true reg).1
           else (prepareForestForSerialization host forest false reg).1)
          (some props)]) ∧
    (∀ q, getLatestComponentState q forest = none →
      (getLatestComponentExplorerViewCallback host hasDi forest (some q)
        reg).1 = []) := by
  intro host hasDi forest reg
  refine ⟨?_, ?_, ?_, ?_⟩
  · intro query
    cases query with
    | none => cases hasDi <;> simp [getLatestComponentExplorerViewCallback]
    | some q =>
      cases hasDi <;>
        · simp only [getLatestComponentExplorerViewCallback]
          cases getLatestComponentState q forest <;> simp
  · cases hasDi <;> simp [getLatestComponentExplorerViewCallback]
  · intro q props hq
    cases hasDi <;> simp [getLatestComponentExplorerViewCallback, hq]
  · intro q hq
    cases hasDi <;> simp [getLatestComponentExplorerViewCallback, hq]

/-- C1 witness: a resolving query on a one-node forest yields exactly one
event carrying the forest and the resolved properties. -/
theorem c1_witness :
    (getLatestComponentExplorerViewCallback host0 false [node0] (some q0)
      reg0).1 =
      [Event.latestComponentExplorerView
        (prepareForestForSerialization host0 [node0] false reg0).1
        (some [("A", [])])] :=
  (c1_theorem host0 false [node0] reg0).2.2.1 q0 [("A", [])] rfl

/-- C2 (code bug evaluated at the failing input): on a forest holding one
component whose live instance is the empty object, a property path with a
missing segment followed by a further segment makes the handler throw
(`data[prop]` on `undefined` is a `TypeError`), emitting nothing; only when
the missing segment is last does the handler emit the `{props: {}}` result
the claim describes. -/
theorem c2_theorem :
    getNestedPropertiesCallback [node0] pos0 ["a", "b"] = Except.error () ∧
    getNestedPropertiesCallback [node0] pos0 ["a"] =
      Except.ok [Event.nestedProperties pos0 [] ["a"]] :=
  ⟨rfl, rfl⟩

/-- C3 counterexample: on a concrete one-node snapshot the gc pass does not
precede the snapshot's id lookups (the trace performs a directive id lookup
before the gc). -/
theorem c3_counterexample :
    gcRunsFirst
      ((getLatestComponentExplorerViewCallback host0 true [node0] none
        reg0).2.2) = false := by
  rfl

/-- C3 (amended): in every full snapshot taken with the DI debug APIs
present, the injector-registry garbage-collection pass runs exactly once,
as the final registry operation of the snapshot — after, not before, the
snapshot's id lookups (which mark the seen-set it sweeps) — and it leaves
the seen-set cleared. -/
theorem c3_theorem :
    ∀ (host : HostAPI) (forest : List ComponentTreeNode)
      (query : Option ComponentExplorerViewQuery) (reg : InjectorRegistry),
    ((getLatestComponentExplorerViewCallback host true forest query
        reg).2.2).countP (fun op => decide (op = RegOp.gcInjectors)) = 1 ∧
    ((getLatestComponentExplorerViewCallback host true forest query
        reg).2.2).getLast? = some RegOp.gcInjectors ∧
    (getLatestComponentExplorerViewCallback host true forest query
        reg).2.1.injectorsSeen = [] := by
  intro host forest query reg
  have hng := prepareForest_no_gc host forest true reg
  have htr : (getLatestComponentExplorerViewCallback host true forest query
      reg).2 =
      (⟨(prepareForestForSerialization host forest true reg).2.1.idToInjector.filter
          (fun p => (prepareForestForSerialization host forest true
            reg).2.1.injectorsSeen.contains p.1), []⟩,
       RegOp.indexForest ::
         ((prepareForestForSerialization host forest true reg).2.2 ++
           [RegOp.gcInjectors])) := by
    cases query with
    | none => simp [getLatestComponentExplorerViewCallback]
    | some q =>
      simp only [getLatestComponentExplorerViewCallback]
      cases getLatestComponentState q forest <;> simp
  refine ⟨?_, ?_, ?_⟩
  · rw [htr]
    simp only [List.countP_cons, List.countP_append]
    have h0 : (prepareForestForSerialization host forest true
        reg).2.2.countP (fun op => decide (op = RegOp.gcInjectors)) = 0 := by
      refine List.countP_eq_zero.mpr ?_
      intro a ha
      simp only [decide_eq_true_eq]
      intro h
      exact hng (h ▸ ha)
    simp [h0]
  · rw [htr, ← List.cons_append, getLast?_append_singleton]
  · rw [htr]

/-- C4 counterexample: with every readiness condition false, the tree
snapshot handler and the profiling handler are still installed, so more than
the capability-probe and shutdown handlers are active. -/
theorem c4_counterexample :
    CommandName.getLatestComponentExplorerView ∈
      (subscribeToClientEvents false false false).1 ∧
    CommandName.startProfiling ∈ (subscribeToClientEvents false false false).1 := by
  decide

/-- C4 (amended): all thirteen command handlers — including the tree,
profiling, and injector handlers — are installed regardless of the readiness
conditions; only the inspector handlers and the debounced change-notifier
subscription require all three readiness conditions to hold. -/
theorem c4_theorem :
    ∀ devMode supportedVersion ivy : Bool,
    (CommandName.shutdown ∈
        (subscribeToClientEvents devMode supportedVersion ivy).1 ∧
      CommandName.getLatestComponentExplorerView ∈
        (subscribeToClientEvents devMode supportedVersion ivy).1 ∧
      CommandName.queryNgAvailability ∈
        (subscribeToClientEvents devMode supportedVersion ivy).1 ∧
      CommandName.startProfiling ∈
        (subscribeToClientEvents devMode supportedVersion ivy).1 ∧
      CommandName.stopProfiling ∈
        (subscribeToClientEvents devMode supportedVersion ivy).1 ∧
      CommandName.setSelectedComponent ∈
        (subscribeToClientEvents devMode supportedVersion ivy).1 ∧
      CommandName.getNestedProperties ∈
        (subscribeToClientEvents devMode supportedVersion ivy).1 ∧
      CommandName.getRoutes ∈
        (subscribeToClientEvents devMode supportedVersion ivy).1 ∧
      CommandName.updateState ∈
        (subscribeToClientEvents devMode supportedVersion ivy).1 ∧
      CommandName.enableTimingAPI ∈
        (subscribeToClientEvents devMode supportedVersion ivy).1 ∧
      CommandName.disableTimingAPI ∈
        (subscribeToClientEvents devMode supportedVersion ivy).1 ∧
      CommandName.getInjectorProviders ∈
        (subscribeToClientEvents devMode supportedVersion ivy).1 ∧
      CommandName.logProvider ∈
        (subscribeToClientEvents devMode supportedVersion ivy).1) ∧
    (((CommandName.inspectorStart ∈
        (subscribeToClientEvents devMode supportedVersion ivy).1) ↔
      (devMode && supportedVersion && ivy) = true) ∧
      ((CommandName.inspectorEnd ∈
        (subscribeToClientEvents devMode supportedVersion ivy).1) ↔
      (devMode && supportedVersion && ivy) = true) ∧
      ((CommandName.createHighlightOverlay ∈
        (subscribeToClientEvents devMode supportedVersion ivy).1) ↔
      (devMode && supportedVersion && ivy) = true) ∧
      ((CommandName.removeHighlightOverlay ∈
        (subscribeToClientEvents devMode supportedVersion ivy).1) ↔
      (devMode && supportedVersion && ivy) = true)) ∧
    (subscribeToClientEvents devMode supportedVersion ivy).2 =
      (devMode && supportedVersion && ivy) := by
  decide

/-- C5: with resolution paths requested, every node contributes a serialized
node (node counts are preserved and every serialized node carries a
`resolutionPath` key); a node with no owning element injector gets
`resolutionPath = []` (not an error); and within a chain the serialized path
consists of exactly the serializable injectors, in order — unserializable
ones are skipped while the rest are still serialized. -/
theorem c5_theorem :
    ∀ (host : HostAPI) (roots : List ComponentTreeNode)
      (reg : InjectorRegistry),
    forestPathsPresent
      (prepareForestForSerialization host roots true reg).1 = true ∧
    countSerializedForest
      (prepareForestForSerialization host roots true reg).1 =
      countForest roots ∧
    (∀ (chain : List Injector) (reg2 : InjectorRegistry),
      (serializeResolutionPath reg2 chain).1.map (fun s => s.name) =
        (chain.filter (fun injector => injector.name.isSome)).map
          (fun injector => injector.name.getD "")) ∧
    (∀ (el : String) (comp : Option ComponentInstanceType)
       (dirs : List DirectiveInstanceType)
       (children : List ComponentTreeNode) (native : Nat)
       (reg3 : InjectorRegistry),
      host.getInjectorFromElementNode native = none →
      (prepareNodeForSerialization host
        (ComponentTreeNode.mk el comp dirs children native) true
        reg3).1.resolutionPath = some []) := by
  intro host roots reg
  refine ⟨(prepareForest_true_spec host roots reg).1,
          (prepareForest_true_spec host roots reg).2,
          fun chain reg2 => serializeResolutionPath_names chain reg2, ?_⟩
  intro el comp dirs children native reg3 hinj
  simp [prepareNodeForSerialization, hinj,
    SerializableComponentTreeNode.resolutionPath]

/-- C5 witness: a concrete node whose element owns no injector serializes
with an empty resolution path. -/
theorem c5_witness :
    (prepareNodeForSerialization host0
      (ComponentTreeNode.mk "app" none [] [] 0) true
      reg0).1.resolutionPath = some [] :=
  (c5_theorem host0 [] reg0).2.2.2 "app" none [] [] 0 reg0 rfl

/-- C6: a `getInjectorProviders` request whose injector id is unknown to the
registry produces no event; a known id produces exactly one
`latestInjectorProviders` event whose provider records are serialized in
environment-scope form precisely when the request's injector type is
`"environment"`. -/
theorem c6_theorem :
    ∀ (reg : InjectorRegistry) (gp : Nat → List ProviderRecord)
      (spr : ProviderRecord → Bool → SerializedProviderRecord)
      (injector : SerializedInjector),
    (reg.idToInjector.lookup injector.id = none →
      getInjectorProvidersCallback reg gp spr injector = []) ∧
    (∀ injectorRef,
      reg.idToInjector.lookup injector.id = some injectorRef →
      injector.type = "environment" →
      getInjectorProvidersCallback reg gp spr injector =
        [Event.latestInjectorProviders injector
          ((gp injectorRef).map
            (fun providerRecord => spr providerRecord true))]) ∧
    (∀ injectorRef,
      reg.idToInjector.lookup injector.id = some injectorRef →
      injector.type ≠ "environment" →
      getInjectorProvidersCallback reg gp spr injector =
        [Event.latestInjectorProviders injector
          ((gp injectorRef).map
            (fun providerRecord => spr providerRecord false))]) := by
  intro reg gp spr injector
  refine ⟨?_, ?_, ?_⟩
  · intro h
    simp [getInjectorProvidersCallback, h]
  · intro injectorRef h htype
    simp [getInjectorProvidersCallback, h, htype]
  · intro injectorRef h htype
    simp [getInjectorProvidersCallback, h, htype]

/-- C6 witness: a known environment-typed injector id yields exactly one
event with the provider records serialized in environment-scope form. -/
theorem c6_witness :
    getInjectorProvidersCallback reg5 getProviders2 serializeRecord0 injEnv5 =
      [Event.latestInjectorProviders injEnv5
        [⟨"T0", IndexValue.list [0, 1]⟩, ⟨"T1", IndexValue.list [0, 1]⟩]] :=
  (c6_theorem reg5 getProviders2 serializeRecord0 injEnv5).2.1 77 rfl rfl

/-- C7: the change notifier debounces with a 250 ms quiescence window:
signals at t = 0, 50, 100, 200 ms followed by silence produce exactly one
notification, at t = 450 ms (not at 250 ms); and in any continuous stream of
signals with gaps under 250 ms, every notification fires strictly after
every signal — no notification while the stream continues. -/
theorem c7_theorem :
    debounceEmitTimes 250 [0, 50, 100, 200] = [450] ∧
    ∀ signals, strictAscWithGaps 250 signals = true →
    ∀ e ∈ debounceEmitTimes 250 signals, ∀ t ∈ signals, t < e := by
  refine ⟨by decide, ?_⟩
  intro signals hasc e he t ht
  unfold debounceEmitTimes at he
  rw [List.mem_filterMap] at he
  obtain ⟨t0, ht0, hf⟩ := he
  by_cases hcond :
    signals.any (fun u => decide (t0 < u) && decide (u ≤ t0 + 250)) = true
  · rw [if_pos hcond] at hf
    exact absurd hf (by simp)
  · have hc0 : signals.any
        (fun u => decide (t0 < u) && decide (u ≤ t0 + 250)) = false := by
      rwa [Bool.not_eq_true] at hcond
    rw [if_neg hcond] at hf
    have hmax := suppressFree_is_max 250 signals hasc t0 ht0 hc0 t ht
    have he250 : e = t0 + 250 := (Option.some.injEq _ _).mp hf |>.symm
    omega

/-- C7 witness: at the concrete burst 0, 50, 100, 200 the single
notification, at 450 ms, is strictly after the signal at 200 ms. -/
theorem c7_witness :
    debounceEmitTimes 250 [0, 50, 100, 200] = [450] ∧ (200 : Nat) < 450 :=
  ⟨c7_theorem.1,
   c7_theorem.2 [0, 50, 100, 200] (by decide) 450 (by decide) 200 (by decide)⟩

/-- C8: a session of `startProfiling`, three frames, `stopProfiling` yields
three `sendProfilerChunk` events (one per frame, streamed) followed by
exactly one `profilerResults` event carrying all recorded frames; and a
frame seen while Idle is not delivered. -/
theorem c8_theorem :
    ∀ a b c : Nat,
    profilerRun ⟨ProfilerPhase.idle, []⟩
      [ProfilerInput.startCmd, ProfilerInput.frame a, ProfilerInput.frame b,
       ProfilerInput.frame c, ProfilerInput.stopCmd] =
      [Event.sendProfilerChunk a, Event.sendProfilerChunk b,
       Event.sendProfilerChunk c, Event.profilerResults [a, b, c]] ∧
    ∀ (f : Nat) (frames : List Nat),
      (profilerStep ⟨ProfilerPhase.idle, frames⟩ (ProfilerInput.frame f)).2 =
        [] :=
  fun _ _ _ => ⟨rfl, fun _ _ => rfl⟩

/-- C9: a `logProvider` request with a known injector id and a
multi-provider record (list of indices) logs all referenced provider
records, but retrieves and logs the resolved value of only the first listed
provider's token. -/
theorem c9_theorem :
    ∀ (reg : InjectorRegistry) (gp : Nat → List ProviderRecord)
      (si : SerializedInjector) (tok : String) (i0 : Nat) (rest : List Nat)
      (injectorRef : Nat) (p0 : ProviderRecord),
    reg.idToInjector.lookup si.id = some injectorRef →
    (gp injectorRef)[i0]? = some p0 →
    logProvider reg gp si ⟨tok, IndexValue.list (i0 :: rest)⟩ =
      ([ConsoleOp.group si.name si.type, ConsoleOp.logInjector injectorRef,
        ConsoleOp.logProviderList
          ((i0 :: rest).map (fun index => (gp injectorRef)[index]?)),
        ConsoleOp.logValue p0.token, ConsoleOp.groupEnd], false) := by
  intro reg gp si tok i0 rest injectorRef p0 h1 h2
  simp [logProvider, h1, h2]

/-- C9 witness: with two provider records and index list `[0, 1]`, both
records are logged while only the token of record 0 has its value
retrieved. -/
theorem c9_witness :
    logProvider reg5 getProviders2 injElem5 ⟨"tk", IndexValue.list [0, 1]⟩ =
      ([ConsoleOp.group "Elem" "element", ConsoleOp.logInjector 77,
        ConsoleOp.logProviderList [some ⟨"T0"⟩, some ⟨"T1"⟩],
        ConsoleOp.logValue "T0", ConsoleOp.groupEnd], false) :=
  c9_theorem reg5 getProviders2 injElem5 "tk" 0 [1] 77 ⟨"T0"⟩ rfl rfl

/-- C10: when the DI debug APIs are absent, the snapshot handler serializes
the forest without resolution paths (no serialized node carries a
`resolutionPath` key) and the injector registry is left completely
untouched — in particular no injector-id mapping is removed. -/
theorem c10_theorem :
    ∀ (host : HostAPI) (forest : List ComponentTreeNode)
      (query : Option ComponentExplorerViewQuery) (reg : InjectorRegistry),
    (getLatestComponentExplorerViewCallback host false forest query
        reg).2.1 = reg ∧
    forestPathsAbsent
      (prepareForestForSerialization host forest false reg).1 = true := by
  intro host forest query reg
  have h := prepareForest_false_spec host forest reg
  constructor
  · have hst : (getLatestComponentExplorerViewCallback host false forest
        query reg).2.1 =
        (prepareForestForSerialization host forest false reg).2.1 := by
      cases query with
      | none => simp [getLatestComponentExplorerViewCallback]
      | some q =>
        simp only [getLatestComponentExplorerViewCallback]
        cases getLatestComponentState q forest <;> simp
    rw [hst, h.1]
  · exact h.2

end AngularDevtools
